import Mathlib

/-!
Verification of the ndt-server measurement pipeline: a shallow embedding of
the connection wrapper (the `magic`/`listener` packages), the ndt7 measurer,
the sender and the receiver, with theorems settling the specified properties.

External effects (syscalls, websocket reads and writes, the memoryless
ticker) are embedded as explicit oracle inputs: each fallible operation's
outcome is a parameter of the embedded function, and the embedded function
computes exactly what the Go code computes from those outcomes.
-/

namespace NdtServer

/-- Error values (Go `error`); an abstract code stands for each distinct error. -/
abbrev Err := Nat

/-- Abstract token for an accepted raw `*net.TCPConn`. -/
abbrev RawTCP := Nat

/-- Abstract token for a duplicated `*os.File` descriptor. -/
abbrev FileHandle := Nat

/-- The fields of `inetdiag.BBRInfo` that the spec names; the Go zero value is
`⟨0, 0⟩`. -/
structure BBRInfoRaw where
  maxBandwidth : Nat
  minRTT : Nat
deriving DecidableEq

/-- The Go zero value `inetdiag.BBRInfo\x7b\x7d`. -/
def zeroBBRInfo : BBRInfoRaw := ⟨0, 0⟩

/-- Opaque snapshot of `tcp.LinuxTCPInfo`; the code never inspects its fields,
so it is embedded as an abstract payload. -/
structure LinuxTCPInfo where
  payload : Nat
deriving DecidableEq

/-! ## Connection wrapper: `Conn.ReadInfo` (magic package, part_000:78–88;
identical in `listener.MagicConn.ReadInfo`, measurer.go:272–283).

The two kernel reads `bbr.GetMaxBandwidthAndMinRTT(mc.File)` and
`tcpinfox.GetTCPInfo(mc.File)` are oracle inputs `bbrRes` and `tcpRes`. -/

/-- Embedding of `Conn.ReadInfo`:
```
bbrinfo, err := bbr.GetMaxBandwidthAndMinRTT(mc.File)
if err != nil \x7b bbrinfo = inetdiag.BBRInfo\x7b\x7d \x7d
tcpInfo, err := tcpinfox.GetTCPInfo(mc.File)
if err != nil \x7b return inetdiag.BBRInfo\x7b\x7d, tcp.LinuxTCPInfo\x7b\x7d, err \x7d
return bbrinfo, *tcpInfo, nil
```
-/
def ReadInfo (bbrRes : Except Err BBRInfoRaw) (tcpRes : Except Err LinuxTCPInfo) :
    Except Err (BBRInfoRaw × LinuxTCPInfo) :=
  let bbrinfo : BBRInfoRaw :=
    match bbrRes with
    | .ok b => b
    | .error _ => zeroBBRInfo
  match tcpRes with
  | .error e => .error e
  | .ok t => .ok (bbrinfo, t)

/-! ## Connection wrapper: `Listener.Accept` (part_000:43–61; identical in
`listener.MagicListener.Accept`, measurer.go:302–319). -/

/-- A wrapped connection: the raw TCP stream plus the duplicated descriptor. -/
structure Conn where
  conn : RawTCP
  file : FileHandle
deriving DecidableEq

/-- Observable outcome of one `Accept` call: the value and error returned, plus
whether keep-alive was configured on the raw connection and whether the raw
connection was closed before returning. -/
structure AcceptResult where
  conn : Option Conn
  err : Option Err
  keepAliveSet : Bool
  rawClosed : Bool
deriving DecidableEq

/-- Embedding of `Listener.Accept`. `acceptRes` is the outcome of
`ln.AcceptTCP()`; `dupRes` is the outcome of `fdcache.TCPConnToFile(tc)`
(the file-descriptor duplication). On duplication failure the code logs,
closes `tc` and returns `nil, err`. -/
def acceptRun (acceptRes : Except Err RawTCP) (dupRes : Except Err FileHandle) :
    AcceptResult :=
  match acceptRes with
  | .error e => { conn := none, err := some e, keepAliveSet := false, rawClosed := false }
  | .ok tc =>
    match dupRes with
    | .error e => { conn := none, err := some e, keepAliveSet := true, rawClosed := true }
    | .ok fp => { conn := some ⟨tc, fp⟩, err := none, keepAliveSet := true, rawClosed := false }

/-! ## Connection wrapper: `Conn.Close` (part_000:63–67; identical in
`MagicConn.Close`, measurer.go:257–261). -/

/-- Resource state of a wrapped connection: whether the duplicated descriptor
and the underlying stream are still open. -/
structure ConnState where
  fileOpen : Bool
  connOpen : Bool
deriving DecidableEq

/-- The close actions a `Conn.Close` call can perform, in the order performed. -/
inductive CloseAction where
  | closeFile
  | closeConn
deriving DecidableEq

/-- Embedding of `mc.File.Close()`: releases the descriptor; `res` is the
returned error, if any. -/
def fileClose (st : ConnState) (res : Option Err) : ConnState × Option Err :=
  ({ st with fileOpen := false }, res)

/-- Embedding of `mc.Conn.Close()`: releases the stream; `res` is the returned
error, if any. -/
def streamClose (st : ConnState) (res : Option Err) : ConnState × Option Err :=
  ({ st with connOpen := false }, res)

/-- Embedding of `Conn.Close`:
```
mc.File.Close()
return mc.Conn.Close()
```
The descriptor close's result is discarded; the stream close's result is
returned. The trace records the order of the two calls. -/
def connCloseRun (st : ConnState) (fileRes streamRes : Option Err) :
    ConnState × List CloseAction × Option Err :=
  let (st1, _) := fileClose st fileRes
  let (st2, r) := streamClose st1 streamRes
  (st2, [CloseAction.closeFile, CloseAction.closeConn], r)

/-! ## Measurement data model (`model` package, modelled from the spec).

Modelled from the spec: the `model` package is not under src/; the spec's
DATA MODEL section gives `BBRInfo = \x7bMaxBandwidth, MinRTT, ElapsedTime\x7d`,
`TCPInfo = \x7b…, ElapsedTime\x7d`,
`Measurement = \x7bElapsedTime, BBRInfo?, TCPInfo?, ConnectionInfo\x7d`,
`ConnectionInfo = \x7bClientAddress, ServerAddress, ConnectionUUID\x7d`. Only the
fields the embedded code assigns are carried. -/

/-- Modelled from the spec: `model.BBRInfo` — the kernel counters plus the
sample's elapsed time in microseconds. -/
structure ModelBBRInfo where
  info : BBRInfoRaw
  elapsedTime : Nat
deriving DecidableEq

/-- Modelled from the spec: `model.TCPInfo` — the kernel snapshot plus the
sample's elapsed time in microseconds. -/
structure ModelTCPInfo where
  info : LinuxTCPInfo
  elapsedTime : Nat
deriving DecidableEq

/-- Modelled from the spec: `model.ConnectionInfo`. -/
structure ConnectionInfo where
  client : String
  server : String
  uuid : String
deriving DecidableEq

/-- Modelled from the spec: `model.Measurement`. The Go zero value has all
pointer fields nil, embedded as `none` defaults. -/
structure Measurement where
  bbrInfo : Option ModelBBRInfo := none
  tcpInfo : Option ModelTCPInfo := none
  connectionInfo : Option ConnectionInfo := none
deriving DecidableEq

/-! ## Measurer (`measurer.go:42–57` `measure`, `measurer.go:59–104` `loop`).

Time is in nanoseconds (Go `time.Duration` units); the loop's tick times are
`start + g₁ + … + gₖ` for the ticker's inter-sample gaps `gₖ`, so the elapsed
duration `now.Sub(start)` at the k-th tick is the partial sum of the gaps.
The ticker keeps firing until the `DefaultRuntime` deadline `R` expires, after
which its channel closes (`now, active := <-ticker.C; if !active \x7b return \x7d`):
a tick whose elapsed time is within the deadline is delivered, the first one
past it is not. `reads k` gives the outcomes of the two kernel reads behind
`mc.ReadInfo()` at the k-th delivered tick. -/

/-- Embedding of `measure` (measurer.go:42–57) combined with the loop's
`measurement.ConnectionInfo = connectionInfo` assignment: `t` is
`int64(elapsed / time.Microsecond)`; on `ReadInfo` success both `BBRInfo` and
`TCPInfo` are set with `ElapsedTime = t`, on failure both stay nil. -/
def mkMeasurement (readRes : Except Err (BBRInfoRaw × LinuxTCPInfo))
    (elapsedNs : Nat) (ci : ConnectionInfo) : Measurement :=
  let t := elapsedNs / 1000
  match readRes with
  | .ok (b, tc) =>
    { bbrInfo := some ⟨b, t⟩, tcpInfo := some ⟨tc, t⟩, connectionInfo := some ci }
  | .error _ => { connectionInfo := some ci }

/-- Embedding of the measurer's sampling loop (measurer.go:89–98): one
recursive step per ticker gap. `elapsed` is the elapsed time accumulated so
far; a tick at `elapsed + g ≤ R` is delivered and produces one emitted
measurement, the first tick past `R` finds the ticker channel closed and the
loop returns. `k` indexes the delivered ticks into the read oracle. -/
def measurerLoop (R : Nat)
    (reads : Nat → Except Err BBRInfoRaw × Except Err LinuxTCPInfo)
    (ci : ConnectionInfo) : Nat → Nat → List Nat → List Measurement
  | _, _, [] => []
  | elapsed, k, g :: gs =>
    let e := elapsed + g
    if e ≤ R then
      mkMeasurement (ReadInfo (reads k).1 (reads k).2) e ci ::
        measurerLoop R reads ci e (k + 1) gs
    else []

/-- Outcome of one measurer run: the emitted measurements, and whether the
output stream was closed on return (`defer close(dst)`). -/
structure MeasurerRun where
  emitted : List Measurement
  streamClosed : Bool
deriving DecidableEq

/-- Modelled from the spec: validity of the `memoryless.Config`
`\x7bMin, Expected, Max\x7d` used by `memoryless.NewTicker` (the `memoryless`
package is not under src/): a bounded memoryless process needs
`0 < Min ≤ Expected ≤ Max`; `NewTicker` fails on an invalid configuration. -/
def configValid (minI expected maxI : Nat) : Prop :=
  0 < minI ∧ minI ≤ expected ∧ expected ≤ maxI

instance (minI expected maxI : Nat) : Decidable (configValid minI expected maxI) :=
  inferInstanceAs (Decidable (_ ∧ _ ∧ _))

/-- Embedding of `Measurer.loop` (measurer.go:59–104): on an invalid sampling
configuration `memoryless.NewTicker` fails and the loop returns without
emitting (stream still closed by the deferred `close(dst)`); otherwise it
samples at the ticker's gaps until the `DefaultRuntime` deadline `R`. -/
def measurerStart (minI expected maxI R : Nat) (gaps : List Nat)
    (reads : Nat → Except Err BBRInfoRaw × Except Err LinuxTCPInfo)
    (ci : ConnectionInfo) : MeasurerRun :=
  if configValid minI expected maxI then
    { emitted := measurerLoop R reads ci 0 0 gaps, streamClosed := true }
  else
    { emitted := [], streamClosed := true }

/-- Modelled from the spec: `spec.MinPoissonSamplingInterval` (10ms), in ns. -/
def MinPoissonSamplingInterval : Nat := 10000000

/-- Modelled from the spec: `spec.AveragePoissonSamplingInterval` (50ms), in ns. -/
def AveragePoissonSamplingInterval : Nat := 50000000

/-- Modelled from the spec: `spec.MaxPoissonSamplingInterval` (100ms), in ns. -/
def MaxPoissonSamplingInterval : Nat := 100000000

/-- Modelled from the spec: `spec.DefaultRuntime` (250ms), in ns. -/
def DefaultRuntime : Nat := 250000000

/-! ## Sender (`sender.Start`, web100_stub.go:40–91).

The session-wide `conn.SetWriteDeadline` outcome is the oracle `wd`. The
measurement stream is the finite list of measurements the measurer emits
before closing its channel; `m, ok := <-src` with `ok = false` is the end of
that list. Each received measurement comes paired with the outcomes of the
two client writes made for it: `conn.WriteJSON(m)` and
`message.SendTicks(conn, …)`. -/

/-- One stream delivery seen by the sender: the measurement, the outcome of
`conn.WriteJSON(m)` and the outcome of `message.SendTicks`. -/
abbrev SenderEvent := Measurement × Option Err × Option Err

/-- The return site of a failed sender run. -/
inductive FailSite where
  | setDeadline
  | writeJSON
  | sendTicks
deriving DecidableEq

/-- Observable outcome of one `sender.Start` run: the measurements appended to
`data.ServerMeasurements`, how many measurements were consumed from the
stream, whether `closer.StartClosing(conn)` was invoked, the returned error
and (ghost) which return site produced it. -/
structure SenderRun where
  serverMeasurements : List Measurement
  consumed : Nat
  closeSignaled : Bool
  result : Option Err
  failSite : Option FailSite
deriving DecidableEq

/-- Embedding of the sender's receive loop (web100_stub.go:68–91):
```
for \x7b
  m, ok := <-src
  if !ok \x7b closer.StartClosing(conn); return nil \x7d
  if err := conn.WriteJSON(m); err != nil \x7b return err \x7d
  data.ServerMeasurements = append(data.ServerMeasurements, m)
  if err := message.SendTicks(conn, data.StartTime, deadline); err != nil \x7b return err \x7d
\x7d
```
-/
def senderLoop : List SenderEvent → SenderRun
  | [] =>
    { serverMeasurements := [], consumed := 0, closeSignaled := true,
      result := none, failSite := none }
  | (m, wj, st) :: rest =>
    match wj with
    | some e =>
      { serverMeasurements := [], consumed := 1, closeSignaled := false,
        result := some e, failSite := some .writeJSON }
    | none =>
      match st with
      | some e =>
        { serverMeasurements := [m], consumed := 1, closeSignaled := false,
          result := some e, failSite := some .sendTicks }
      | none =>
        let r := senderLoop rest
        { serverMeasurements := m :: r.serverMeasurements, consumed := r.consumed + 1,
          closeSignaled := r.closeSignaled, result := r.result, failSite := r.failSite }

/-- Embedding of `sender.Start` (web100_stub.go:40–91): if
`conn.SetWriteDeadline(deadline)` fails its error is returned before any
stream receive; otherwise the receive loop runs. -/
def senderStart (wd : Option Err) (events : List SenderEvent) : SenderRun :=
  match wd with
  | some e =>
    { serverMeasurements := [], consumed := 0, closeSignaled := false,
      result := some e, failSite := some .setDeadline }
  | none => senderLoop events

/-- The write errors occurring anywhere in a sender event list (outcomes of
`WriteJSON` or `SendTicks`). -/
def writeErrors : List SenderEvent → List Err
  | [] => []
  | (_, wj, st) :: rest => wj.toList ++ st.toList ++ writeErrors rest

/-! ## Receiver (`receiver.start`, receiver.go:25–80).

The inbound frames are the oracle list: each read either fails
(`conn.ReadMessage` error), yields a binary frame, or yields a text frame
whose `json.Unmarshal` outcome is `some m` or `none` (parse failure).
Exhausting the list stands for the read-deadline context expiring
(`for receiverctx.Err() == nil`), the loop's only other exit. `start` returns
no error value; the run records the reason the loop stopped. -/

/-- Which subtest variant the receiver serves. -/
inductive ReceiverKind where
  | download
  | upload
deriving DecidableEq

/-- One inbound read outcome. -/
inductive InMsg where
  | readErr
  | binary
  | text (parsed : Option Measurement)
deriving DecidableEq

/-- Why the receiver loop stopped. -/
inductive StopReason where
  | ctxExpired
  | readError
  | binaryFrame
  | parseError
deriving DecidableEq

/-- Embedding of the receiver's read loop (receiver.go:52–80): a read error
ends the loop; a non-text frame ends the download loop but is skipped by the
upload loop (`continue`); a text frame that unmarshals is appended to
`data.ClientMeasurements`, one that does not ends the loop. The function
returns the appended measurements in order and the stop reason; the Go
function returns no error to its caller. -/
def receiverRun (kind : ReceiverKind) : List InMsg → List Measurement × StopReason
  | [] => ([], .ctxExpired)
  | .readErr :: _ => ([], .readError)
  | .binary :: rest =>
    match kind with
    | .download => ([], .binaryFrame)
    | .upload => receiverRun kind rest
  | .text none :: _ => ([], .parseError)
  | .text (some m) :: rest =>
    let (l, s) := receiverRun kind rest
    (m :: l, s)

/-! ## Theorems -/

/-- C1: `ReadInfo` never returns an error solely because the BBR statistics
read fails: when the BBR read fails but the `TCP_INFO` read succeeds,
`ReadInfo` returns the zero-valued `BBRInfo` together with the `TCPInfo`
snapshot and no error; and for every `TCP_INFO` outcome the returned
`TCPInfo`-and-error part is identical to what a successful BBR read would
have produced. -/
theorem readInfo_bbr_failure_harmless (e e2 : Err) (b : BBRInfoRaw) (t : LinuxTCPInfo) :
    ReadInfo (.error e) (.ok t) = .ok (zeroBBRInfo, t)
    ∧ (ReadInfo (.error e) (.ok t)).map Prod.snd = (ReadInfo (.ok b) (.ok t)).map Prod.snd
    ∧ ReadInfo (.error e) (.error e2) = ReadInfo (.ok b) (.error e2) :=
  ⟨rfl, rfl, rfl⟩

/-- C8: when the file-descriptor duplication step of `Accept` fails, `Accept`
returns a nil connection and the duplication error, and the raw accepted TCP
connection has been closed. -/
theorem accept_dup_failure_closes_raw (tc : RawTCP) (e : Err) :
    (acceptRun (.ok tc) (.error e)).conn = none
    ∧ (acceptRun (.ok tc) (.error e)).err = some e
    ∧ (acceptRun (.ok tc) (.error e)).rawClosed = true :=
  ⟨rfl, rfl, rfl⟩

/-- C9: `Close` on a wrapped connection always performs the descriptor close
followed by the stream close, in that order, whatever either close returns,
and afterwards neither resource is still open; the stream close's result is
the returned one. -/
theorem connClose_releases_both (st : ConnState) (f c : Option Err) :
    (connCloseRun st f c).1 = { fileOpen := false, connOpen := false }
    ∧ (connCloseRun st f c).2.1 = [CloseAction.closeFile, CloseAction.closeConn]
    ∧ (connCloseRun st f c).2.2 = c :=
  ⟨rfl, rfl, rfl⟩

/-- C2 counterexample: with a failing `SetWriteDeadline` (error code 7) and an
immediately-closed stream, `Start` returns an error without performing the
connection-closing signaling and without any client write having failed — a
third termination outcome beyond the two the claim allows. -/
theorem sender_two_outcomes_counterexample :
    ¬ (((senderStart (some 7) []).result = none
          ∧ (senderStart (some 7) []).closeSignaled = true)
        ∨ ∃ e, (senderStart (some 7) []).result = some e ∧ e ∈ writeErrors []) := by
  rintro (⟨h1, _⟩ | ⟨e, _, he⟩)
  · exact absurd h1 (by decide)
  · exact absurd he (List.not_mem_nil e)

/-- Helper for the sender termination theorem: the receive loop alone has
exactly the two claimed outcomes. -/
theorem senderLoop_outcomes (events : List SenderEvent) :
    ((senderLoop events).result = none ∧ (senderLoop events).closeSignaled = true)
    ∨ (∃ e, (senderLoop events).result = some e ∧ e ∈ writeErrors events
        ∧ (senderLoop events).closeSignaled = false) := by
  induction events with
  | nil => exact Or.inl ⟨rfl, rfl⟩
  | cons ev rest ih =>
    obtain ⟨m, wj, st⟩ := ev
    cases wj with
    | some e => exact Or.inr ⟨e, rfl, by simp [writeErrors], rfl⟩
    | none =>
      cases st with
      | some e => exact Or.inr ⟨e, rfl, by simp [writeErrors], rfl⟩
      | none =>
        rcases ih with ⟨h1, h2⟩ | ⟨e, h1, h2, h3⟩
        · exact Or.inl ⟨h1, h2⟩
        · exact Or.inr ⟨e, h1, by simp [writeErrors, h2], h3⟩

/-- C2 (amended): `Start` has exactly three termination outcomes: a failing
`SetWriteDeadline` returns its error before any stream receive and without
close signaling; a closed stream yields close signaling and a nil error; a
failed client write (measurement write or liveness-probe send) yields that
write's error without close signaling. -/
theorem sender_three_outcomes (wd : Option Err) (events : List SenderEvent) :
    (∃ e, wd = some e
      ∧ senderStart wd events
        = { serverMeasurements := [], consumed := 0, closeSignaled := false,
            result := some e, failSite := some .setDeadline })
    ∨ (wd = none ∧ (senderStart wd events).result = none
        ∧ (senderStart wd events).closeSignaled = true)
    ∨ (wd = none ∧ ∃ e, (senderStart wd events).result = some e
        ∧ e ∈ writeErrors events ∧ (senderStart wd events).closeSignaled = false) := by
  cases wd with
  | some e => exact Or.inl ⟨e, rfl, rfl⟩
  | none =>
    rcases senderLoop_outcomes events with ⟨h1, h2⟩ | ⟨e, h1, h2, h3⟩
    · exact Or.inr (Or.inl ⟨rfl, h1, h2⟩)
    · exact Or.inr (Or.inr ⟨rfl, e, h1, h2, h3⟩)

/-- C3 counterexample: a run whose first measurement write fails consumes one
measurement from the stream but appends nothing to `ServerMeasurements`, so
the appended count differs from the consumed count. -/
theorem sender_append_eq_consumed_counterexample :
    ¬ ((senderLoop [({}, some 3, none)]).serverMeasurements.length
        = (senderLoop [({}, some 3, none)]).consumed) := by
  decide

/-- C3 (amended): the number of entries appended to `ServerMeasurements`
equals the number of measurements consumed from the stream, except when the
run terminates because the measurement write itself (`WriteJSON`) failed, in
which case it is the consumed count minus one — the measurement received last
was consumed but not appended. -/
theorem sender_append_count (wd : Option Err) (events : List SenderEvent) :
    (senderStart wd events).serverMeasurements.length
      + (if (senderStart wd events).failSite = some FailSite.writeJSON then 1 else 0)
    = (senderStart wd events).consumed := by
  have h : ∀ evs : List SenderEvent,
      (senderLoop evs).serverMeasurements.length
        + (if (senderLoop evs).failSite = some FailSite.writeJSON then 1 else 0)
      = (senderLoop evs).consumed := by
    intro evs
    induction evs with
    | nil => rfl
    | cons ev rest ih =>
      obtain ⟨m, wj, st⟩ := ev
      cases wj with
      | some e => rfl
      | none =>
        cases st with
        | some e => rfl
        | none =>
          simp only [senderLoop, List.length_cons]
          omega
  cases wd with
  | some e => rfl
  | none => exact h events

/-- C4: in the download variant, after any run of successfully-parsed text
frames, a binary frame terminates the read loop at once: the appended client
measurements are exactly those parsed before the binary frame, nothing is
appended for the binary frame, the frames after it are never examined, and
the stop reason is the protocol violation (the Go function propagates no
error to its caller). -/
theorem receiver_download_binary_terminates (pre : List Measurement) (rest : List InMsg) :
    receiverRun .download (pre.map (fun m => InMsg.text (some m)) ++ InMsg.binary :: rest)
    = (pre, StopReason.binaryFrame) := by
  induction pre with
  | nil => rfl
  | cons m pre ih =>
    simp only [List.map_cons, List.cons_append, receiverRun, List.append_eq, ih]

/-- C5: in the upload variant, a binary frame is silently discarded and the
loop continues unchanged; a text frame that deserializes as a measurement is
prepended in arrival order to whatever the rest of the run appends; a text
frame that fails to deserialize terminates the loop with nothing appended
(and the Go function propagates no error to its caller). -/
theorem receiver_upload_frames (m : Measurement) (rest : List InMsg) :
    receiverRun .upload (InMsg.binary :: rest) = receiverRun .upload rest
    ∧ receiverRun .upload (InMsg.text (some m) :: rest)
      = ((receiverRun .upload rest).1.cons m, (receiverRun .upload rest).2)
    ∧ receiverRun .upload (InMsg.text none :: rest) = ([], StopReason.parseError) := by
  refine ⟨rfl, ?_, rfl⟩
  rcases h : receiverRun .upload rest with ⟨l, s⟩
  simp [receiverRun, h]

/-- All the `ElapsedTime` values stored in a measurement (in its `BBRInfo`
and its `TCPInfo`, when present). -/
def Measurement.elapsedTimes (m : Measurement) : List Nat :=
  (m.bbrInfo.map ModelBBRInfo.elapsedTime).toList
    ++ (m.tcpInfo.map ModelTCPInfo.elapsedTime).toList

/-- Every `ElapsedTime` a single sample stores is that sample's elapsed
nanoseconds divided by 1000 (the microsecond conversion in `measure`). -/
theorem mkMeasurement_elapsedTimes (res : Except Err (BBRInfoRaw × LinuxTCPInfo))
    (e : Nat) (ci : ConnectionInfo) :
    ∀ t ∈ (mkMeasurement res e ci).elapsedTimes, t = e / 1000 := by
  intro t ht
  rcases res with e2 | ⟨b, tc⟩ <;>
    simp [mkMeasurement, Measurement.elapsedTimes] at ht
  exact ht

/-- Every `ElapsedTime` stored by a measurement the loop emits from
accumulated elapsed time `elapsed` onwards is at least `elapsed / 1000`. -/
theorem measurerLoop_elapsed_lb (R : Nat)
    (reads : Nat → Except Err BBRInfoRaw × Except Err LinuxTCPInfo)
    (ci : ConnectionInfo) :
    ∀ (gaps : List Nat) (elapsed k : Nat),
      ∀ m ∈ measurerLoop R reads ci elapsed k gaps,
        ∀ t ∈ m.elapsedTimes, elapsed / 1000 ≤ t := by
  intro gaps
  induction gaps with
  | nil => intro elapsed k m hm; simp [measurerLoop] at hm
  | cons g gs ih =>
    intro elapsed k m hm t ht
    simp only [measurerLoop] at hm
    split at hm
    · rcases List.mem_cons.mp hm with rfl | hm2
      · rw [mkMeasurement_elapsedTimes _ _ _ t ht]
        exact Nat.div_le_div_right (Nat.le_add_right _ _)
      · exact le_trans (Nat.div_le_div_right (Nat.le_add_right elapsed g))
          (ih (elapsed + g) (k + 1) m hm2 t ht)
    · simp at hm

/-- The loop's emissions are pairwise ordered by every stored `ElapsedTime`. -/
theorem measurerLoop_pairwise (R : Nat)
    (reads : Nat → Except Err BBRInfoRaw × Except Err LinuxTCPInfo)
    (ci : ConnectionInfo) :
    ∀ (gaps : List Nat) (elapsed k : Nat),
      List.Pairwise (fun a b => ∀ x ∈ a.elapsedTimes, ∀ y ∈ b.elapsedTimes, x ≤ y)
        (measurerLoop R reads ci elapsed k gaps) := by
  intro gaps
  induction gaps with
  | nil => intro elapsed k; simp [measurerLoop]
  | cons g gs ih =>
    intro elapsed k
    simp only [measurerLoop]
    split
    · refine List.Pairwise.cons ?_ (ih (elapsed + g) (k + 1))
      intro b hb x hx y hy
      rw [mkMeasurement_elapsedTimes _ _ _ x hx]
      exact measurerLoop_elapsed_lb R reads ci gs (elapsed + g) (k + 1) b hb y hy
    · simp

/-- C7: within one sampling run, every `ElapsedTime` carried by an emitted
measurement is ≥ every `ElapsedTime` carried by any earlier emitted
measurement — in particular each sample's `ElapsedTime` is ≥ the previous
sample's. -/
theorem measurer_elapsed_monotone (minI expected maxI R : Nat) (gaps : List Nat)
    (reads : Nat → Except Err BBRInfoRaw × Except Err LinuxTCPInfo)
    (ci : ConnectionInfo) :
    List.Pairwise (fun a b => ∀ x ∈ a.elapsedTimes, ∀ y ∈ b.elapsedTimes, x ≤ y)
      (measurerStart minI expected maxI R gaps reads ci).emitted := by
  unfold measurerStart
  split
  · exact measurerLoop_pairwise R reads ci gaps 0 0
  · simp

/-- Upper bound on the number of emissions: each delivered tick advances the
elapsed time by at least `minI`, and the elapsed time never exceeds `R`. -/
theorem measurerLoop_length_le (R minI : Nat)
    (reads : Nat → Except Err BBRInfoRaw × Except Err LinuxTCPInfo)
    (ci : ConnectionInfo) (hmin : 0 < minI) :
    ∀ (gaps : List Nat) (elapsed k : Nat), (∀ g ∈ gaps, minI ≤ g) →
      (measurerLoop R reads ci elapsed k gaps).length ≤ (R - elapsed) / minI := by
  intro gaps
  induction gaps with
  | nil => intro elapsed k _; simp [measurerLoop]
  | cons g gs ih =>
    intro elapsed k hg
    simp only [measurerLoop]
    split
    next h =>
      simp only [List.length_cons]
      have hgm : minI ≤ g := hg g (List.mem_cons_self g gs)
      have h1 := ih (elapsed + g) (k + 1) (fun g2 hg2 => hg g2 (List.mem_cons_of_mem _ hg2))
      have h2 : R - (elapsed + g) + minI ≤ R - elapsed := by omega
      have h3 : (R - (elapsed + g)) / minI + 1 = (R - (elapsed + g) + minI) / minI :=
        (Nat.add_div_right _ hmin).symm
      have h4 : (R - (elapsed + g) + minI) / minI ≤ (R - elapsed) / minI :=
        Nat.div_le_div_right h2
      omega
    next => simp

/-- Lower bound on the number of emissions: each gap is at most `maxI` and the
ticker keeps firing until past the deadline, so ticks cover the runtime. -/
theorem measurerLoop_length_ge (R maxI : Nat)
    (reads : Nat → Except Err BBRInfoRaw × Except Err LinuxTCPInfo)
    (ci : ConnectionInfo) (hmax : 0 < maxI) :
    ∀ (gaps : List Nat) (elapsed k : Nat), (∀ g ∈ gaps, g ≤ maxI) →
      R < elapsed + gaps.sum →
      (R - elapsed) / maxI ≤ (measurerLoop R reads ci elapsed k gaps).length := by
  intro gaps
  induction gaps with
  | nil =>
    intro elapsed k _ hsum
    simp only [List.sum_nil, Nat.add_zero] at hsum
    have h0 : R - elapsed = 0 := by omega
    simp [measurerLoop, h0]
  | cons g gs ih =>
    intro elapsed k hg hsum
    have hgm : g ≤ maxI := hg g (List.mem_cons_self g gs)
    simp only [measurerLoop]
    split
    next h =>
      simp only [List.length_cons]
      have h1 := ih (elapsed + g) (k + 1) (fun g2 hg2 => hg g2 (List.mem_cons_of_mem _ hg2))
        (by simp only [List.sum_cons] at hsum; omega)
      have h2 : R - elapsed ≤ R - (elapsed + g) + maxI := by omega
      have h3 : (R - elapsed) / maxI ≤ (R - (elapsed + g) + maxI) / maxI :=
        Nat.div_le_div_right h2
      have h4 : (R - (elapsed + g) + maxI) / maxI = (R - (elapsed + g)) / maxI + 1 :=
        Nat.add_div_right _ hmax
      omega
    next h =>
      have h5 : R - elapsed < maxI := by omega
      simp [Nat.div_eq_of_lt h5]

/-- C6: for every valid sampling configuration `Min ≤ Expected ≤ Max`, runtime
`R`, and tick schedule whose gaps respect the configured bounds and whose
ticks cover the runtime, the measurer emits at least `floor(R/Max)` and at
most `ceil(R/Min)` samples and closes its output stream on return. -/
theorem measurer_sample_count_bounds (minI expected maxI R : Nat) (gaps : List Nat)
    (reads : Nat → Except Err BBRInfoRaw × Except Err LinuxTCPInfo)
    (ci : ConnectionInfo) (hvalid : configValid minI expected maxI)
    (hg : ∀ g ∈ gaps, minI ≤ g ∧ g ≤ maxI) (hcover : R < gaps.sum) :
    R / maxI ≤ (measurerStart minI expected maxI R gaps reads ci).emitted.length
    ∧ (measurerStart minI expected maxI R gaps reads ci).emitted.length
      ≤ (R + minI - 1) / minI
    ∧ (measurerStart minI expected maxI R gaps reads ci).streamClosed = true := by
  obtain ⟨hmin, hme, hem⟩ := hvalid
  have hmax : 0 < maxI := lt_of_lt_of_le hmin (le_trans hme hem)
  have hstart : measurerStart minI expected maxI R gaps reads ci
      = { emitted := measurerLoop R reads ci 0 0 gaps, streamClosed := true } := by
    simp [measurerStart, configValid, hmin, hme, hem]
  rw [hstart]
  refine ⟨?_, ?_, rfl⟩
  · have h := measurerLoop_length_ge R maxI reads ci hmax gaps 0 0
      (fun g hgm => (hg g hgm).2) (by omega)
    simpa using h
  · show (measurerLoop R reads ci 0 0 gaps).length ≤ _
    have h := measurerLoop_length_le R minI reads ci hmin gaps 0 0
      (fun g hgm => (hg g hgm).1)
    have h2 : (R - 0) / minI ≤ (R + minI - 1) / minI :=
      Nat.div_le_div_right (by omega)
    omega

/-- Witness for C6 at the spec's concrete configuration: Min = 10ms,
Expected = 50ms, Max = 100ms, R = 250ms, with a schedule of three 100ms gaps
and a BBR read that always fails: between 2 and 25 samples are emitted and
the stream is closed. -/
theorem measurer_sample_count_bounds_witness :
    2 ≤ (measurerStart MinPoissonSamplingInterval AveragePoissonSamplingInterval
        MaxPoissonSamplingInterval DefaultRuntime [100000000, 100000000, 100000000]
        (fun _ => (Except.error 1, Except.ok ⟨0⟩)) ⟨"c", "s", "u"⟩).emitted.length
    ∧ (measurerStart MinPoissonSamplingInterval AveragePoissonSamplingInterval
        MaxPoissonSamplingInterval DefaultRuntime [100000000, 100000000, 100000000]
        (fun _ => (Except.error 1, Except.ok ⟨0⟩)) ⟨"c", "s", "u"⟩).emitted.length ≤ 25
    ∧ (measurerStart MinPoissonSamplingInterval AveragePoissonSamplingInterval
        MaxPoissonSamplingInterval DefaultRuntime [100000000, 100000000, 100000000]
        (fun _ => (Except.error 1, Except.ok ⟨0⟩)) ⟨"c", "s", "u"⟩).streamClosed = true := by
  have h := measurer_sample_count_bounds MinPoissonSamplingInterval
    AveragePoissonSamplingInterval MaxPoissonSamplingInterval DefaultRuntime
    [100000000, 100000000, 100000000]
    (fun _ => (Except.error 1, Except.ok ⟨0⟩)) ⟨"c", "s", "u"⟩
    (by decide) (by decide) (by decide)
  have e1 : DefaultRuntime / MaxPoissonSamplingInterval = 2 := by decide
  have e2 : (DefaultRuntime + MinPoissonSamplingInterval - 1)
      / MinPoissonSamplingInterval = 25 := by decide
  exact ⟨e1 ▸ h.1, e2 ▸ h.2.1, h.2.2⟩

/-- Every emitted measurement is some `mkMeasurement` with this run's
connection info. -/
theorem measurerLoop_mem_shape (R : Nat)
    (reads : Nat → Except Err BBRInfoRaw × Except Err LinuxTCPInfo)
    (ci : ConnectionInfo) :
    ∀ (gaps : List Nat) (elapsed k : Nat), ∀ m ∈ measurerLoop R reads ci elapsed k gaps,
      ∃ res e, m = mkMeasurement res e ci := by
  intro gaps
  induction gaps with
  | nil => intro elapsed k m hm; simp [measurerLoop] at hm
  | cons g gs ih =>
    intro elapsed k m hm
    simp only [measurerLoop] at hm
    split at hm
    · rcases List.mem_cons.mp hm with rfl | hm2
      · exact ⟨_, _, rfl⟩
      · exact ih (elapsed + g) (k + 1) m hm2
    · simp at hm

/-- The number of emissions does not depend on the kernel-read outcomes: a
tick whose `ReadInfo` fails still produces an emitted measurement. -/
theorem measurerLoop_length_reads_indep (R : Nat) (ci : ConnectionInfo)
    (reads reads2 : Nat → Except Err BBRInfoRaw × Except Err LinuxTCPInfo) :
    ∀ (gaps : List Nat) (elapsed k k2 : Nat),
      (measurerLoop R reads ci elapsed k gaps).length
      = (measurerLoop R reads2 ci elapsed k2 gaps).length := by
  intro gaps
  induction gaps with
  | nil => intro elapsed k k2; rfl
  | cons g gs ih =>
    intro elapsed k k2
    simp only [measurerLoop]
    split
    · simp only [List.length_cons, ih (elapsed + g) (k + 1) (k2 + 1)]
    · rfl

/-- C10: every measurement the measurer emits carries this run's
`ConnectionInfo` and has `BBRInfo` and `TCPInfo` either both present with the
same `ElapsedTime` value or both nil; and the number of emitted measurements
is the same whatever the kernel-read outcomes are — a tick whose `ReadInfo`
fails still emits a measurement carrying only `ConnectionInfo`. -/
theorem measurer_fields_paired (minI expected maxI R : Nat) (gaps : List Nat)
    (reads reads2 : Nat → Except Err BBRInfoRaw × Except Err LinuxTCPInfo)
    (ci : ConnectionInfo) :
    (∀ m ∈ (measurerStart minI expected maxI R gaps reads ci).emitted,
      m.connectionInfo = some ci
      ∧ ((∃ t b tc, m.bbrInfo = some ⟨b, t⟩ ∧ m.tcpInfo = some ⟨tc, t⟩)
          ∨ (m.bbrInfo = none ∧ m.tcpInfo = none)))
    ∧ (measurerStart minI expected maxI R gaps reads ci).emitted.length
      = (measurerStart minI expected maxI R gaps reads2 ci).emitted.length := by
  constructor
  · intro m hm
    unfold measurerStart at hm
    split at hm
    · obtain ⟨res, e, rfl⟩ := measurerLoop_mem_shape R reads ci gaps 0 0 m hm
      rcases res with e2 | ⟨b, tc⟩
      · exact ⟨rfl, Or.inr ⟨rfl, rfl⟩⟩
      · exact ⟨rfl, Or.inl ⟨e / 1000, b, tc, rfl, rfl⟩⟩
    · simp at hm
  · unfold measurerStart
    split
    · exact measurerLoop_length_reads_indep R ci reads reads2 gaps 0 0 0
    · rfl

end NdtServer
